import Mathlib

/-!
Verification development for the pipeline execution application.

The frontend source (React) is embedded shallowly: each JavaScript function
relevant to the checked properties is translated into a Lean definition over
explicit state values.  JavaScript objects with possibly-missing fields are
modelled with `Option`-typed record fields; JSON values are modelled as
`String`.  Side effects that do not touch the local component state
(HTTP fetches, toasts) are outside the model and noted at each definition.
-/

namespace AiPoc

/-! ## Data model: execution history and context (frontend shape) -/

/-- One entry of an execution's history, as consumed by the frontend
(`entry.state_id`, `entry.action`, `entry.inputs`, `entry.outputs`).
Values are modelled as strings. -/
structure HistoryEntry where
  state_id : String
  action : String
  inputs : List (String × String) := []
  outputs : List (String × String) := []
deriving Repr, DecidableEq

/-- The frontend `executionContext` object.  Every field is optional because
the object is built incrementally by the dispatcher (a JavaScript spread over
a possibly-null previous value leaves absent fields `undefined`). -/
structure ExecutionContext where
  execution_id : Option String := none
  status : Option String := none
  history : Option (List HistoryEntry) := none
  vars : Option (List (String × String)) := none
  final_result : Option String := none
  error : Option String := none
  currentStateId : Option String := none
deriving Repr, DecidableEq

/-- The context value a JavaScript spread produces from `null`: all fields
absent. -/
def emptyContext : ExecutionContext := {}

/-- A message delivered on the execution WebSocket, as read by
`handleWebSocketMessage` (`data.type`, `data.state_id`, `data.status`,
`data.execution_id`, `data.history`, `data.variables`, `data.final_result`,
`data.error`). -/
structure WsMessage where
  type : String
  execution_id : String := ""
  state_id : String := ""
  status : String := ""
  history : List HistoryEntry := []
  vars : List (String × String) := []
  final_result : Option String := none
  error : String := ""
deriving Repr, DecidableEq

/-- Embedding of `handleWebSocketMessage` from
`src/frontend/src/pages/PipelineDetail.jsx` (lines 77-151).  The component
state acted on is the pair `(activeStateId, executionContext)`.  The
`state_completed` case only launches a server refetch (an HTTP effect outside
this model) and synchronously leaves the local state unchanged; the
`transition_executed` case and the switch default do nothing.  Toasts and the
`executing` flag are presentation effects outside the model. -/
def handleWebSocketMessage (data : WsMessage) (activeStateId : Option String)
    (ctx : Option ExecutionContext) : Option String × Option ExecutionContext :=
  if data.type = "state_started" then
    (some data.state_id,
     some { ctx.getD emptyContext with
              currentStateId := some data.state_id
              status := some data.status })
  else if data.type = "state_completed" then
    (activeStateId, ctx)
  else if data.type = "transition_executed" then
    (activeStateId, ctx)
  else if data.type = "execution_completed" then
    (activeStateId,
     some { execution_id := some data.execution_id
            status := some data.status
            history := some data.history
            vars := some data.vars
            final_result := data.final_result })
  else if data.type = "execution_error" then
    (activeStateId,
     some { ctx.getD emptyContext with
              status := some "error"
              error := some data.error })
  else
    (activeStateId, ctx)

/-- The event types the specification ascribes to the per-execution event
stream (spec §6): `entered`, `completed`, `transitioned`,
`execution_completed`, `execution_error`. -/
def specEventTypes : List String :=
  ["entered", "completed", "transitioned", "execution_completed", "execution_error"]

/-- The event types for which `handleWebSocketMessage` has a switch case in
the source. -/
def codeEventTypes : List String :=
  ["state_started", "state_completed", "transition_executed",
   "execution_completed", "execution_error"]

/-! ## Grouping of history entries in ExecutionResults -/

/-- Scan of a character list for the two-character pattern `->`. -/
def hasArrow : List Char → Bool
  | [] => false
  | '-' :: '>' :: _ => true
  | _ :: rest => hasArrow rest

/-- Model of the JavaScript test `entry.state_id.includes('->')` in
`ExecutionResults.jsx` (line 66): the `state_id` contains the substring
`->`, i.e. the entry is a synthetic `A->B` transition marker. -/
def isTransitionMarker (state_id : String) : Bool :=
  hasArrow state_id.data

/-- One iteration of the grouping loop in `ExecutionResults.jsx`
(lines 62-73): transition markers are skipped; other entries are appended to
the group stored under their `state_id`, creating the group on first use
(JavaScript object keys keep insertion order, modelled as an association
list). -/
def pushEntry (acc : List (String × List HistoryEntry)) (e : HistoryEntry) :
    List (String × List HistoryEntry) :=
  if isTransitionMarker e.state_id then acc
  else if acc.any (fun kv => kv.1 == e.state_id) then
    acc.map (fun kv => if kv.1 == e.state_id then (kv.1, kv.2 ++ [e]) else kv)
  else acc ++ [(e.state_id, [e])]

/-- Embedding of the `stateHistory` per-node grouping computed by
`ExecutionResults` over `executionContext.history`. -/
def stateHistory (history : List HistoryEntry) : List (String × List HistoryEntry) :=
  history.foldl pushEntry []

/-- The group stored under key `k` (JavaScript `stateHistory[k]`), `[]` when
the key is absent. -/
def lookupGroup (k : String) (groups : List (String × List HistoryEntry)) :
    List HistoryEntry :=
  match groups.find? (fun kv => kv.1 == k) with
  | some kv => kv.2
  | none => []

/-! ## Ports, states and the add-transition flow -/

/-- A `Port` of a state (`id`, `name`, `data_type`). -/
structure Port where
  id : String
  name : String
  data_type : String
deriving Repr, DecidableEq

/-- The `data` payload of a ReactFlow node built by `mapStatesToNodes`
(`PipelineDetail.jsx`, lines 180-198): the fields used by the
add-transition flow. -/
structure NodeData where
  inputs : List Port := []
  outputs : List Port := []
deriving Repr, DecidableEq

/-- A ReactFlow node as used by `getSourceOutputs` / `getTargetInputs`. -/
structure FlowNode where
  id : String
  data : NodeData
deriving Repr, DecidableEq

/-- Embedding of `getSourceOutputs` (`PipelineDetail.jsx`, lines 596-599):
the outputs of the node whose id is the pending transition's source, `[]`
when no such node exists. -/
def getSourceOutputs (nodes : List FlowNode) (sourceId : String) : List Port :=
  match nodes.find? (fun n => n.id == sourceId) with
  | some n => n.data.outputs
  | none => []

/-- Embedding of `getTargetInputs` (`PipelineDetail.jsx`, lines 602-605). -/
def getTargetInputs (nodes : List FlowNode) (targetId : String) : List Port :=
  match nodes.find? (fun n => n.id == targetId) with
  | some n => n.data.inputs
  | none => []

/-- The `newTransition` form state of `PipelineDetail`. -/
structure NewTransition where
  sourceId : String
  targetId : String
  outputId : String
  inputId : String
deriving Repr, DecidableEq

/-- The form state set by `onConnect` (`PipelineDetail.jsx`, lines 313-325)
when the modal opens: source and target fixed, port selections cleared. -/
def connectReset (source target : String) : NewTransition :=
  { sourceId := source, targetId := target, outputId := "", inputId := "" }

/-- A user interaction with the two `Select` elements of
`AddTransitionModal` (`src/unnamed/part_001`, lines 37-65). -/
inductive ModalEvent where
  | selectOutput (v : String)
  | selectInput (v : String)
deriving Repr, DecidableEq

/-- The option values offered by a `Select` over a port list: the empty
placeholder `""` plus one option per port, whose value is the port id. -/
def optionValues (ports : List Port) : List String :=
  "" :: ports.map (fun p => p.id)

/-- Effect of one select change on the form state.  The DOM guarantees that
a `change` event's value is one of the rendered option values; an event
carrying any other value cannot arise from the select and is a no-op in the
model. -/
def applyEvent (nodes : List FlowNode) (t : NewTransition) : ModalEvent → NewTransition
  | .selectOutput v =>
      if (optionValues (getSourceOutputs nodes t.sourceId)).contains v then
        { t with outputId := v }
      else t
  | .selectInput v =>
      if (optionValues (getTargetInputs nodes t.targetId)).contains v then
        { t with inputId := v }
      else t

/-- The modal's submit button is rendered with
`isDisabled = !newTransition.outputId || !newTransition.inputId`
(`src/unnamed/part_001`, line 75); submission is possible exactly when both
selected ids are non-empty. -/
def submitEnabled (t : NewTransition) : Bool :=
  !(t.outputId == "") && !(t.inputId == "")

/-- The transition payload sent by `handleAddTransition`
(`PipelineDetail.jsx`, lines 449-480). -/
structure TransitionPayload where
  id : String
  source_id : String
  target_id : String
  source_output_id : String
  target_input_id : String
  label : String
deriving Repr, DecidableEq

/-- Embedding of `handleAddTransition`: builds the payload from the form
state, with a human-readable label from the selected port names (falling
back to the raw ids when a port is not found). -/
def handleAddTransition (nodes : List FlowNode) (t : NewTransition)
    (transitionId : String) : TransitionPayload :=
  let sourceOutputs := getSourceOutputs nodes t.sourceId
  let targetInputs := getTargetInputs nodes t.targetId
  let sourceOutputName :=
    match sourceOutputs.find? (fun o => o.id == t.outputId) with
    | some o => o.name
    | none => t.outputId
  let targetInputName :=
    match targetInputs.find? (fun i => i.id == t.inputId) with
    | some i => i.name
    | none => t.inputId
  { id := transitionId
    source_id := t.sourceId
    target_id := t.targetId
    source_output_id := t.outputId
    target_input_id := t.inputId
    label := sourceOutputName ++ " → " ++ targetInputName }

/-- Invariant of the add-transition form: each selected port id is either
still the empty placeholder or the id of a port offered by the
corresponding select. -/
def portSelectionInv (nodes : List FlowNode) (t : NewTransition) : Prop :=
  (t.outputId = "" ∨
    t.outputId ∈ (getSourceOutputs nodes t.sourceId).map (fun p => p.id)) ∧
  (t.inputId = "" ∨
    t.inputId ∈ (getTargetInputs nodes t.targetId).map (fun p => p.id))

/-! ## Pipeline creator defaults and execute request -/

/-- A pipeline state as persisted by the frontend (`id`, `type`, `name`,
`description`, `position`, `inputs`, `outputs`). -/
structure PState where
  id : String
  type : String
  name : String
  description : String
  position : Int × Int
  inputs : List Port := []
  outputs : List Port := []
deriving Repr, DecidableEq

/-- Embedding of the `defaultStates` array built by
`PipelineCreator.handleSubmit` (`src/unnamed/part_003`, lines 29-61):
a start state and an end state whose ids carry random suffixes `r1`, `r2`. -/
def defaultStates (r1 r2 : String) : List PState :=
  let startStateId := "start-" ++ r1
  let endStateId := "end-" ++ r2
  [ { id := startStateId
      type := "start"
      name := "Start"
      description := "Pipeline entry point"
      position := (100, 200)
      outputs := [{ id := startStateId ++ "-out-0", name := "initial_prompt",
                    data_type := "string" }]
      inputs := [] },
    { id := endStateId
      type := "end"
      name := "End"
      description := "Pipeline output"
      position := (500, 200)
      inputs := [{ id := endStateId ++ "-in-0", name := "final_output",
                   data_type := "string" }]
      outputs := [] } ]

/-- The JSON body sent by `handleExecutePipeline` (`PipelineDetail.jsx`,
lines 538-546): the user's initial input bound under the key
`initial_prompt`. -/
def executeRequestBody (initialPrompt : String) : List (String × String) :=
  [("initial_prompt", initialPrompt)]

/-- The execution context the frontend initializes right after the execute
request returns an execution id (`PipelineDetail.jsx`, lines 558-565). -/
def initialExecutionContext (executionId : String) : ExecutionContext :=
  { execution_id := some executionId, status := some "running",
    history := some [], vars := some [], currentStateId := none }

/-! ## Execution engine (modelled from the spec)

The backend engine (`backend/app`, a FastAPI service) is not among the
sources; only its HTTP callers are.  The definitions in this section are
modelled from the specification (§3, §4.2, §4.3, §5, §6, §7) and are marked
as such. -/

/-- A pipeline transition (data model §3), in the shape posted by the
frontend. -/
structure PTransition where
  id : String
  source_id : String
  target_id : String
  source_output_id : String
  target_input_id : String
  label : String
deriving Repr, DecidableEq

/-- A pipeline definition (data model §3). -/
structure Pipeline where
  name : String
  description : String
  states : List PState
  transitions : List PTransition
deriving Repr, DecidableEq

/-- One record in the engine's history (state id and action tag). -/
structure EngineRecord where
  state_id : String
  action : String
deriving Repr, DecidableEq

/-- Modelled from the spec: the engine-side `ExecutionContext` (§3) with the
fields the checked properties mention; `executed` tracks the states already
dispatched (the complement of the spec's ready-set bookkeeping). -/
structure EngineState where
  execution_id : String
  pipeline_id : String
  status : String
  history : List EngineRecord
  vars : List (String × String)
  executed : List String
  error : Option String
deriving Repr, DecidableEq

/-- Modelled from the spec: `startExecution(pipeline_id, initial_input) ->
execution_id` (§6) creates the context in `initialized` and immediately
transitions it to `running` (§4.2).  The initial input itself is consumed by
the scheduler when the start state is dispatched.  The pair holds the
context as created and as it is when the call returns. -/
def startExecution (pipeline_id : String) (_initial_input : String)
    (execution_id : String) : EngineState × EngineState :=
  let c0 : EngineState :=
    { execution_id := execution_id, pipeline_id := pipeline_id,
      status := "initialized", history := [], vars := [],
      executed := [], error := none }
  (c0, { c0 with status := "running" })

/-- Terminal instance statuses (§4.2): `completed`, `error`, `terminated`. -/
def isTerminal (status : String) : Bool :=
  status == "completed" || status == "error" || status == "terminated"

/-- Modelled from the spec: `terminateExecution` (§5, §6) moves a `running`
or `paused` instance to `terminated`, recording a final history entry and
freezing the context; terminating an already-terminated instance is a no-op
success; control calls against `completed` or `error` instances fail with
`InvalidStateTransition` and never mutate execution state (§4.2, §7).  The
Bool is the ok flag. -/
def terminateExecution (c : EngineState) : EngineState × Bool :=
  if c.status = "terminated" then (c, true)
  else if c.status = "running" ∨ c.status = "paused" then
    ({ c with status := "terminated",
              history := c.history ++
                [{ state_id := "execution", action := "terminated" }] },
     true)
  else (c, false)

/-- Modelled from the spec (§4.3): an input port is bound when a transition
targets it and the source output's value has been written into `vars`
(keyed by `source_id.source_output_id`). -/
def portBound (p : Pipeline) (vars : List (String × String))
    (stateId : String) (port : Port) : Bool :=
  p.transitions.any (fun t =>
    t.target_id == stateId && t.target_input_id == port.id &&
      vars.any (fun v => v.1 == t.source_id ++ "." ++ t.source_output_id))

/-- Modelled from the spec (§4.2): a state is ready when every required
input port has a bound value; the start state is ready from the initial
input. -/
def isReady (p : Pipeline) (vars : List (String × String)) (s : PState) : Bool :=
  s.type == "start" || s.inputs.all (portBound p vars s.id)

/-- The first ready not-yet-executed state, in the order states are listed
(a deterministic sequentialization of the spec's ready-set dispatch). -/
def firstReady (p : Pipeline) (c : EngineState) : Option PState :=
  p.states.find? (fun s => !c.executed.contains s.id && isReady p c.vars s)

/-- Modelled from the spec (§4.3 `resolve`): the bound input values of a
ready state, keyed by input port name; the start state receives the initial
input. -/
def resolveInputs (p : Pipeline) (initialInput : String)
    (vars : List (String × String)) (s : PState) : List (String × String) :=
  if s.type == "start" then [("initial_input", initialInput)]
  else s.inputs.filterMap (fun port =>
    (p.transitions.find? (fun t =>
        t.target_id == s.id && t.target_input_id == port.id)).bind
      (fun t => (vars.find? (fun v =>
          v.1 == t.source_id ++ "." ++ t.source_output_id)).map
        (fun v => (port.name, v.2))))

/-- A capability assignment (§4.4): state type and bound inputs to outputs
keyed by output port name, or a failure message.  Capabilities are total
Lean functions — exactly the "capabilities that themselves terminate". -/
def Caps : Type :=
  String → List (String × String) → Except String (List (String × String))

/-- Outputs written into `vars`, keyed by `state_id.port_id` (§4.2 step 4). -/
def bindOutputs (s : PState) (outs : List (String × String)) :
    List (String × String) :=
  s.outputs.filterMap (fun port =>
    (outs.find? (fun o => o.1 == port.name)).map
      (fun o => (s.id ++ "." ++ port.id, o.2)))

/-- Modelled from the spec (§4.2 per-step algorithm, §7): a running instance
dispatches the first ready unexecuted state; a capability failure moves the
instance to `error` with the message preserved; on success the `entered` and
`completed` records are appended, outputs are written, and the state is
marked executed.  When no state is ready, every active branch has
terminated, which is the `running -> completed` transition ("all active
branches have reached an end state"; for valid pipelines every end state has
been executed by this point).  Non-running statuses are frozen. -/
def step (p : Pipeline) (caps : Caps) (initialInput : String)
    (c : EngineState) : EngineState :=
  if c.status = "running" then
    match firstReady p c with
    | none => { c with status := "completed" }
    | some s =>
      match caps s.type (resolveInputs p initialInput c.vars s) with
      | .error e =>
          { c with status := "error", error := some e,
                   history := c.history ++
                     [{ state_id := s.id, action := "entered" }] }
      | .ok outs =>
          { c with executed := c.executed ++ [s.id],
                   vars := c.vars ++ bindOutputs s outs,
                   history := c.history ++
                     [{ state_id := s.id, action := "entered" },
                      { state_id := s.id, action := "completed" }] }
  else c

/-- Fuelled iteration of `step`, stopping at a terminal status (the
"repeated polling" of the claim). -/
def run (p : Pipeline) (caps : Caps) (initialInput : String) :
    Nat → EngineState → EngineState
  | 0, c => c
  | n + 1, c =>
    if isTerminal c.status then c
    else run p caps initialInput n (step p caps initialInput c)

/-- The number of pipeline states not yet executed. -/
def unexecutedCount (p : Pipeline) (c : EngineState) : Nat :=
  (p.states.filter (fun s => !c.executed.contains s.id)).length

/-- Modelled from the spec (§3 Pipeline invariant, §4.1): exactly one state
of type `start`; at least one state of type `end`; every non-start state
has at least one incoming transition; no transition references a
non-existent state, output port, or input port. -/
def validPipeline (p : Pipeline) : Bool :=
  ((p.states.filter (fun s => s.type == "start")).length == 1) &&
  !(p.states.filter (fun s => s.type == "end")).isEmpty &&
  p.states.all (fun s => s.type == "start" ||
    p.transitions.any (fun t => t.target_id == s.id)) &&
  p.transitions.all (fun t =>
    p.states.any (fun s => s.id == t.source_id &&
      s.outputs.any (fun o => o.id == t.source_output_id)) &&
    p.states.any (fun s => s.id == t.target_id &&
      s.inputs.any (fun i => i.id == t.target_input_id)))

/-- A concrete two-state pipeline: the creator's default states joined by a
single transition from the start output to the end input. -/
def samplePipeline : Pipeline :=
  { name := "sample", description := ""
    states := defaultStates "a" "b"
    transitions := [{ id := "t1", source_id := "start-a", target_id := "end-b",
                      source_output_id := "start-a-out-0",
                      target_input_id := "end-b-in-0",
                      label := "initial_prompt → final_output" }] }

/-! ## The useWebSocket hook -/

/-- A browser WebSocket object, identified by the URL it was opened on. -/
structure WsSocket where
  url : String
deriving Repr, DecidableEq

/-- The observable socket effects of `connect` / `disconnect`. -/
inductive WsEffect where
  | closeSocket (s : WsSocket)
  | openSocket (url : String)
deriving Repr, DecidableEq

/-- The WebSocket URL built by `connect` (`useWebSocket.js`, lines 21-22):
the `wss:` scheme exactly when the page protocol is `https:` (`ws:`
otherwise) and the path `/ws/execution/<executionId>`. -/
def wsUrl (protocol host executionId : String) : String :=
  (if protocol = "https:" then "wss:" else "ws:") ++ "//" ++ host ++
    "/ws/execution/" ++ executionId

/-- Embedding of `connect` (`useWebSocket.js`, lines 16-52): first closes
the previously tracked socket if any, then opens a new socket on the
execution URL and tracks it.  Effects are listed in program order. -/
def connect (protocol host : String) (socket : Option WsSocket)
    (executionId : String) : List WsEffect × Option WsSocket :=
  let closes := match socket with
    | some s => [WsEffect.closeSocket s]
    | none => []
  (closes ++ [WsEffect.openSocket (wsUrl protocol host executionId)],
   some { url := wsUrl protocol host executionId })

/-- Embedding of `disconnect` (`useWebSocket.js`, lines 55-60): closes and
clears the tracked socket. -/
def disconnect (socket : Option WsSocket) : List WsEffect × Option WsSocket :=
  match socket with
  | some s => ([WsEffect.closeSocket s], none)
  | none => ([], none)

/-- Browser-side meaning of an effect on the list of open connections:
closing removes the socket, opening adds a connection on the URL. -/
def applyEffect (conns : List WsSocket) : WsEffect → List WsSocket
  | .closeSocket s => conns.erase s
  | .openSocket url => conns ++ [{ url := url }]

/-- Apply a sequence of effects in order. -/
def applyEffects (conns : List WsSocket) (effs : List WsEffect) : List WsSocket :=
  effs.foldl applyEffect conns

/-- A call into the hook's interface. -/
inductive WsOp where
  | connectTo (executionId : String)
  | disconnectWs
deriving Repr, DecidableEq

/-- One hook call: run `connect`/`disconnect` on the tracked socket and
apply its effects to the open connections. -/
def runOp (protocol host : String) (st : List WsSocket × Option WsSocket)
    (op : WsOp) : List WsSocket × Option WsSocket :=
  match op with
  | .connectTo eid =>
      let r := connect protocol host st.2 eid
      (applyEffects st.1 r.1, r.2)
  | .disconnectWs =>
      let r := disconnect st.2
      (applyEffects st.1 r.1, r.2)

/-- A whole session of hook calls from the initial state (no tracked socket,
no open connection). -/
def runOps (protocol host : String) (ops : List WsOp) :
    List WsSocket × Option WsSocket :=
  ops.foldl (runOp protocol host) ([], none)

/-! ## Dashboard status colors -/

/-- Embedding of `getStatusColor` from the execution dashboard
(`src/unnamed/part_005`, lines 159-177). -/
def getStatusColor (status : String) : String :=
  if status = "running" then "blue"
  else if status = "completed" then "green"
  else if status = "error" then "red"
  else if status = "paused" then "yellow"
  else if status = "terminated" then "orange"
  else if status = "initialized" then "purple"
  else "gray"

/-- The six execution statuses the dashboard distinguishes. -/
def dashboardStatuses : List String :=
  ["running", "completed", "error", "paused", "terminated", "initialized"]

end AiPoc

namespace AiPoc

/-! ## Theorems -/

/-- C1 (counterexample): the claim says every message the dispatcher acts on
has `data.type` among `{entered, completed, transitioned,
execution_completed, execution_error}`.  The concrete message with type
`state_started` refutes it: the dispatcher acts on it (it changes the
component state), yet `state_started` is not among the five claimed values. -/
theorem state_started_not_in_spec_event_types :
    handleWebSocketMessage { type := "state_started", state_id := "s1", status := "running" }
      none none ≠ (none, none) ∧
    "state_started" ∉ specEventTypes := by
  constructor
  · decide
  · decide

/-- C1 (amended): every WebSocket message on which `handleWebSocketMessage`
acts (i.e. that changes the component state) has its `data.type` among the
switch's five case labels `state_started`, `state_completed`,
`transition_executed`, `execution_completed`, `execution_error`. -/
theorem handleWebSocketMessage_acts_only_on_known_types
    (data : WsMessage) (a : Option String) (c : Option ExecutionContext)
    (h : handleWebSocketMessage data a c ≠ (a, c)) :
    data.type ∈ codeEventTypes := by
  by_cases h1 : data.type = "state_started"
  · simp [codeEventTypes, h1]
  by_cases h2 : data.type = "state_completed"
  · simp [codeEventTypes, h2]
  by_cases h3 : data.type = "transition_executed"
  · simp [codeEventTypes, h3]
  by_cases h4 : data.type = "execution_completed"
  · simp [codeEventTypes, h4]
  by_cases h5 : data.type = "execution_error"
  · simp [codeEventTypes, h5]
  exact absurd (by simp [handleWebSocketMessage, h1, h2, h3, h4, h5]) h

/-- C1 (witness): the amended theorem applied at a concrete acting message. -/
theorem handleWebSocketMessage_acts_witness :
    ({ type := "state_started", state_id := "s1", status := "running" } : WsMessage).type
      ∈ codeEventTypes :=
  handleWebSocketMessage_acts_only_on_known_types
    { type := "state_started", state_id := "s1", status := "running" } none none
    (by decide)

/-- C3: on an `execution_error` event, when a current execution context
exists, the dispatcher sets `status := "error"` and `error` to the event's
error payload and leaves every other context field (`execution_id`,
`history`, `variables`, `final_result`, `currentStateId`) unchanged, so the
failed execution's context stays available with its history up to the
failure. -/
theorem execution_error_preserves_context_fields
    (data : WsMessage) (a : Option String) (c : ExecutionContext)
    (h : data.type = "execution_error") :
    ∃ c', (handleWebSocketMessage data a (some c)).2 = some c' ∧
      c'.status = some "error" ∧
      c'.error = some data.error ∧
      c'.execution_id = c.execution_id ∧
      c'.history = c.history ∧
      c'.vars = c.vars ∧
      c'.final_result = c.final_result ∧
      c'.currentStateId = c.currentStateId := by
  refine ⟨{ c with status := some "error", error := some data.error }, ?_,
    rfl, rfl, rfl, rfl, rfl, rfl, rfl⟩
  simp [handleWebSocketMessage, h]

/-- C3 (witness): the theorem applied at a concrete `execution_error`
message and context. -/
theorem execution_error_witness :
    ∃ c', (handleWebSocketMessage { type := "execution_error", error := "boom" }
        (some "s1")
        (some { execution_id := some "e1", status := some "running",
                history := some [{ state_id := "s1", action := "entered" }],
                vars := some [("k", "v")], currentStateId := some "s1" })).2 = some c' ∧
      c'.status = some "error" ∧
      c'.error = some "boom" ∧
      c'.execution_id = some "e1" ∧
      c'.history = some [{ state_id := "s1", action := "entered" }] ∧
      c'.vars = some [("k", "v")] ∧
      c'.final_result = none ∧
      c'.currentStateId = some "s1" :=
  execution_error_preserves_context_fields
    { type := "execution_error", error := "boom" } (some "s1")
    { execution_id := some "e1", status := some "running",
      history := some [{ state_id := "s1", action := "entered" }],
      vars := some [("k", "v")], currentStateId := some "s1" }
    rfl

/-- C10: the dashboard's `getStatusColor` maps the six statuses `running`,
`completed`, `error`, `paused`, `terminated`, `initialized` to the six
pairwise-distinct colors `blue`, `green`, `red`, `yellow`, `orange`,
`purple`, and every other string to `gray`. -/
theorem getStatusColor_classification :
    getStatusColor "running" = "blue" ∧
    getStatusColor "completed" = "green" ∧
    getStatusColor "error" = "red" ∧
    getStatusColor "paused" = "yellow" ∧
    getStatusColor "terminated" = "orange" ∧
    getStatusColor "initialized" = "purple" ∧
    (dashboardStatuses.map getStatusColor).Nodup ∧
    ∀ s : String, s ∉ dashboardStatuses → getStatusColor s = "gray" := by
  refine ⟨by decide, by decide, by decide, by decide, by decide, by decide, by decide, ?_⟩
  intro s hs
  simp [dashboardStatuses] at hs
  obtain ⟨h1, h2, h3, h4, h5, h6⟩ := hs
  simp [getStatusColor, h1, h2, h3, h4, h5, h6]

/-- C10 (witness): the classification applied at a string outside the six
statuses. -/
theorem getStatusColor_witness : getStatusColor "queued" = "gray" :=
  getStatusColor_classification.2.2.2.2.2.2.2 "queued" (by decide)

theorem lookupGroup_cons (k : String) (kv : String × List HistoryEntry)
    (t : List (String × List HistoryEntry)) :
    lookupGroup k (kv :: t) = if kv.1 == k then kv.2 else lookupGroup k t := by
  by_cases hb : kv.1 == k <;> simp [lookupGroup, List.find?_cons, hb]

theorem lookupGroup_eq_nil_of_not_any (k : String)
    (acc : List (String × List HistoryEntry))
    (h : acc.any (fun kv => kv.1 == k) = false) :
    lookupGroup k acc = [] := by
  induction acc with
  | nil => rfl
  | cons kv t ih =>
    simp only [List.any_cons, Bool.or_eq_false_iff] at h
    rw [lookupGroup_cons, if_neg (by simp [h.1]), ih h.2]

theorem lookupGroup_map_ne (acc : List (String × List HistoryEntry))
    (e : HistoryEntry) (k : String) (hk : k ≠ e.state_id) :
    lookupGroup k (acc.map (fun kv =>
        if kv.1 == e.state_id then (kv.1, kv.2 ++ [e]) else kv)) =
      lookupGroup k acc := by
  induction acc with
  | nil => rfl
  | cons kv t ih =>
    by_cases hbe : kv.1 == e.state_id
    · have hkv : kv.1 = e.state_id := by simpa using hbe
      have hnk : (kv.1 == k) = false := by
        simp only [hkv, beq_eq_false_iff_ne, ne_eq]
        exact fun h => hk h.symm
      simp only [List.map_cons, if_pos hbe]
      rw [lookupGroup_cons, lookupGroup_cons]
      simp only [hnk]
      simpa using ih
    · simp only [List.map_cons, if_neg hbe]
      rw [lookupGroup_cons, lookupGroup_cons]
      by_cases hbk : kv.1 == k
      · simp [hbk]
      · simpa [hbk] using ih

theorem lookupGroup_map_eq (acc : List (String × List HistoryEntry))
    (e : HistoryEntry)
    (h : acc.any (fun kv => kv.1 == e.state_id) = true) :
    lookupGroup e.state_id (acc.map (fun kv =>
        if kv.1 == e.state_id then (kv.1, kv.2 ++ [e]) else kv)) =
      lookupGroup e.state_id acc ++ [e] := by
  induction acc with
  | nil => simp at h
  | cons kv t ih =>
    by_cases hbe : kv.1 == e.state_id
    · simp only [List.map_cons, if_pos hbe]
      rw [lookupGroup_cons, lookupGroup_cons]
      simp [hbe]
    · simp only [List.any_cons, hbe, Bool.false_or] at h
      simp only [List.map_cons, if_neg hbe]
      rw [lookupGroup_cons, lookupGroup_cons]
      simp only [hbe, if_false]
      exact ih h

theorem lookupGroup_append_single (acc : List (String × List HistoryEntry))
    (sid : String) (es : List HistoryEntry) (k : String) :
    lookupGroup k (acc ++ [(sid, es)]) =
      if acc.any (fun kv => kv.1 == k) then lookupGroup k acc
      else if sid == k then es else [] := by
  induction acc with
  | nil => by_cases h : sid = k <;> simp [lookupGroup_cons, lookupGroup, h]
  | cons kv t ih =>
    by_cases hbk : kv.1 == k
    · simp only [List.cons_append]
      rw [lookupGroup_cons, if_pos hbk]
      simp [List.any_cons, hbk, lookupGroup_cons]
    · have hbk' : (kv.1 == k) = false := by simpa using hbk
      simp only [List.cons_append]
      rw [lookupGroup_cons, if_neg hbk, ih]
      simp only [List.any_cons, hbk', Bool.false_or]
      rw [lookupGroup_cons]
      simp [hbk']

theorem lookupGroup_pushEntry (acc : List (String × List HistoryEntry))
    (e : HistoryEntry) (k : String) :
    lookupGroup k (pushEntry acc e) =
      lookupGroup k acc ++
        (if isTransitionMarker e.state_id = false ∧ e.state_id = k then [e] else []) := by
  by_cases hm : isTransitionMarker e.state_id
  · simp [pushEntry, hm]
  · by_cases hany : acc.any (fun kv => kv.1 == e.state_id)
    · by_cases hk : e.state_id = k
      · subst hk
        simp only [pushEntry, if_neg hm, hany, if_true]
        rw [lookupGroup_map_eq acc e hany]
        simp [hm]
      · simp only [pushEntry, if_neg hm, hany, if_true]
        rw [lookupGroup_map_ne acc e k (fun h => hk h.symm)]
        simp [hk]
    · simp only [pushEntry, if_neg hm, hany, Bool.false_eq_true, if_false]
      rw [lookupGroup_append_single]
      by_cases hk : e.state_id = k
      · subst hk
        have hany' : (acc.any fun kv => kv.1 == e.state_id) = false := by
          simpa only [Bool.not_eq_true] using hany
        simp only [hany', Bool.false_eq_true, if_false]
        rw [lookupGroup_eq_nil_of_not_any _ _ hany']
        simp [hm]
      · have hek : (e.state_id == k) = false := by simp [hk]
        by_cases hanyk : acc.any (fun kv => kv.1 == k)
        · simp [hanyk, hm, hk]
        · have hanyk' : (acc.any fun kv => kv.1 == k) = false := by
            simpa only [Bool.not_eq_true] using hanyk
          rw [if_neg (by simp [hanyk']), hek,
            lookupGroup_eq_nil_of_not_any _ _ hanyk']
          simp [hm, hk]

theorem lookupGroup_foldl (l : List HistoryEntry)
    (acc : List (String × List HistoryEntry)) (k : String) :
    lookupGroup k (l.foldl pushEntry acc) =
      lookupGroup k acc ++
        l.filter (fun e => !isTransitionMarker e.state_id && e.state_id == k) := by
  induction l generalizing acc with
  | nil => simp
  | cons e t ih =>
    simp only [List.foldl_cons]
    rw [ih (pushEntry acc e), lookupGroup_pushEntry, List.append_assoc]
    congr 1
    by_cases hm : isTransitionMarker e.state_id
    · simp [hm, List.filter_cons]
    · by_cases hk : e.state_id = k
      · subst hk
        have hm' : isTransitionMarker e.state_id = false := by
          simpa only [Bool.not_eq_true] using hm
        simp [hm', List.filter_cons]
      · simp [hm, hk, List.filter_cons]

/-- C2: in the per-node grouping computed by `ExecutionResults`, an
execution-history entry is stored under its `state_id` exactly when its
`state_id` does not contain the substring `->`; every synthetic `A->B`
transition marker is excluded, and every other entry is included. -/
theorem stateHistory_groups_exactly_non_transition_entries
    (history : List HistoryEntry) (e : HistoryEntry) (he : e ∈ history) :
    e ∈ lookupGroup e.state_id (stateHistory history) ↔
      isTransitionMarker e.state_id = false := by
  unfold stateHistory
  rw [lookupGroup_foldl history [] e.state_id]
  simp only [lookupGroup, List.find?_nil, List.nil_append]
  rw [List.mem_filter]
  constructor
  · intro h
    simpa using h.2
  · intro h
    exact ⟨he, by simp [h]⟩

theorem applyEvent_preserves_endpoints (nodes : List FlowNode)
    (t : NewTransition) (ev : ModalEvent) :
    (applyEvent nodes t ev).sourceId = t.sourceId ∧
    (applyEvent nodes t ev).targetId = t.targetId := by
  cases ev <;> simp only [applyEvent] <;> split <;> simp

theorem applyEvent_preserves_inv (nodes : List FlowNode) (t : NewTransition)
    (ev : ModalEvent) (h : portSelectionInv nodes t) :
    portSelectionInv nodes (applyEvent nodes t ev) := by
  cases ev with
  | selectOutput v =>
    simp only [applyEvent]
    split
    · rename_i hc
      have hv : v ∈ optionValues (getSourceOutputs nodes t.sourceId) := by
        simpa using hc
      rcases List.mem_cons.mp hv with hv | hv
      · exact ⟨Or.inl hv, h.2⟩
      · exact ⟨Or.inr hv, h.2⟩
    · exact h
  | selectInput v =>
    simp only [applyEvent]
    split
    · rename_i hc
      have hv : v ∈ optionValues (getTargetInputs nodes t.targetId) := by
        simpa using hc
      rcases List.mem_cons.mp hv with hv | hv
      · exact ⟨h.1, Or.inl hv⟩
      · exact ⟨h.1, Or.inr hv⟩
    · exact h

theorem foldl_applyEvent_endpoints (nodes : List FlowNode)
    (events : List ModalEvent) (t : NewTransition) :
    (events.foldl (applyEvent nodes) t).sourceId = t.sourceId ∧
    (events.foldl (applyEvent nodes) t).targetId = t.targetId := by
  induction events generalizing t with
  | nil => exact ⟨rfl, rfl⟩
  | cons ev evs ih =>
    simp only [List.foldl_cons]
    obtain ⟨h1, h2⟩ := ih (applyEvent nodes t ev)
    obtain ⟨g1, g2⟩ := applyEvent_preserves_endpoints nodes t ev
    exact ⟨h1.trans g1, h2.trans g2⟩

theorem foldl_applyEvent_inv (nodes : List FlowNode)
    (events : List ModalEvent) (t : NewTransition)
    (h : portSelectionInv nodes t) :
    portSelectionInv nodes (events.foldl (applyEvent nodes) t) := by
  induction events generalizing t with
  | nil => exact h
  | cons ev evs ih =>
    exact ih (applyEvent nodes t ev) (applyEvent_preserves_inv nodes t ev h)

/-- C4: for every sequence of select interactions after the add-transition
modal opens on a pending source/target pair, if the submit button is enabled
(both port selections non-empty) then the submitted payload's
`source_output_id` is the id of one of the source state's output ports and
its `target_input_id` is the id of one of the target state's input ports;
no transition with an empty or foreign port id is ever sent. -/
theorem addTransition_port_ids_belong_to_selected_states
    (nodes : List FlowNode) (source target transitionId : String)
    (events : List ModalEvent)
    (h : submitEnabled
      (events.foldl (applyEvent nodes) (connectReset source target)) = true) :
    (handleAddTransition nodes
        (events.foldl (applyEvent nodes) (connectReset source target))
        transitionId).source_id = source ∧
    (handleAddTransition nodes
        (events.foldl (applyEvent nodes) (connectReset source target))
        transitionId).target_id = target ∧
    (handleAddTransition nodes
        (events.foldl (applyEvent nodes) (connectReset source target))
        transitionId).source_output_id
      ∈ (getSourceOutputs nodes source).map (fun p => p.id) ∧
    (handleAddTransition nodes
        (events.foldl (applyEvent nodes) (connectReset source target))
        transitionId).target_input_id
      ∈ (getTargetInputs nodes target).map (fun p => p.id) := by
  have hbase : portSelectionInv nodes (connectReset source target) :=
    ⟨Or.inl rfl, Or.inl rfl⟩
  have hinv := foldl_applyEvent_inv nodes events (connectReset source target) hbase
  have hend := foldl_applyEvent_endpoints nodes events (connectReset source target)
  have hsrc : (events.foldl (applyEvent nodes) (connectReset source target)).sourceId
      = source := hend.1
  have htgt : (events.foldl (applyEvent nodes) (connectReset source target)).targetId
      = target := hend.2
  have hsub := h
  simp only [submitEnabled, Bool.and_eq_true, Bool.not_eq_true',
    beq_eq_false_iff_ne, ne_eq] at hsub
  refine ⟨by simp [handleAddTransition, hsrc], by simp [handleAddTransition, htgt],
    ?_, ?_⟩
  · rcases hinv.1 with h0 | hmem
    · exact absurd h0 hsub.1
    · rw [hsrc] at hmem
      simpa [handleAddTransition] using hmem
  · rcases hinv.2 with h0 | hmem
    · exact absurd h0 hsub.2
    · rw [htgt] at hmem
      simpa [handleAddTransition] using hmem

/-- C4 (witness): the theorem applied to a concrete graph and interaction
sequence selecting output `o1` of node `A` and input `i1` of node `B`. -/
theorem addTransition_witness :
    (handleAddTransition
        [{ id := "A", data := { outputs := [{ id := "o1", name := "out", data_type := "string" }] } },
         { id := "B", data := { inputs := [{ id := "i1", name := "in", data_type := "string" }] } }]
        ([ModalEvent.selectOutput "o1", ModalEvent.selectInput "i1"].foldl
          (applyEvent
            [{ id := "A", data := { outputs := [{ id := "o1", name := "out", data_type := "string" }] } },
             { id := "B", data := { inputs := [{ id := "i1", name := "in", data_type := "string" }] } }])
          (connectReset "A" "B"))
        "t1").source_output_id
      ∈ (getSourceOutputs
          [{ id := "A", data := { outputs := [{ id := "o1", name := "out", data_type := "string" }] } },
           { id := "B", data := { inputs := [{ id := "i1", name := "in", data_type := "string" }] } }]
          "A").map (fun p => p.id) :=
  (addTransition_port_ids_belong_to_selected_states
    [{ id := "A", data := { outputs := [{ id := "o1", name := "out", data_type := "string" }] } },
     { id := "B", data := { inputs := [{ id := "i1", name := "in", data_type := "string" }] } }]
    "A" "B" "t1" [ModalEvent.selectOutput "o1", ModalEvent.selectInput "i1"]
    (by decide)).2.2.1

/-- C5: the pipeline creator's default graph has exactly one state of type
`start`, whose inputs are empty and whose outputs consist of the single port
named `initial_prompt`, and at least one state of type `end`, with empty
outputs and exactly one input port; the execute request binds the user's
initial input under the key `initial_prompt`, which is exactly the name of
the start state's sole output port. -/
theorem pipelineCreator_default_states_shape (r1 r2 prompt : String) :
    ((defaultStates r1 r2).filter (fun s => s.type == "start")).length = 1 ∧
    ((defaultStates r1 r2).filter (fun s => s.type == "start")).all
      (fun s => s.inputs.isEmpty &&
        (s.outputs.map (fun p => p.name) == ["initial_prompt"])) = true ∧
    1 ≤ ((defaultStates r1 r2).filter (fun s => s.type == "end")).length ∧
    ((defaultStates r1 r2).filter (fun s => s.type == "end")).all
      (fun s => s.outputs.isEmpty && (s.inputs.length == 1)) = true ∧
    ((defaultStates r1 r2).filter (fun s => s.type == "start")).all
      (fun s => s.outputs.map (fun p => p.name) ==
        (executeRequestBody prompt).map (fun kv => kv.1)) = true ∧
    executeRequestBody prompt = [("initial_prompt", prompt)] :=
  ⟨rfl, rfl, Nat.le.refl, rfl, rfl, rfl⟩

/-- C6: `startExecution` creates the execution context in status
`initialized` and immediately transitions it to `running`; the execution
context observed by the frontend right after a successful execute call
returns an execution id (`handleExecutePipeline`, `PipelineDetail.jsx`
lines 558-565) has status `running` with empty history and empty
variables. -/
theorem startExecution_initialized_then_running (pid input eid : String) :
    (startExecution pid input eid).1.status = "initialized" ∧
    (startExecution pid input eid).2.status = "running" ∧
    (startExecution pid input eid).2.history = [] ∧
    (startExecution pid input eid).2.vars = [] ∧
    (initialExecutionContext eid).status = some "running" ∧
    (initialExecutionContext eid).history = some [] ∧
    (initialExecutionContext eid).vars = some [] ∧
    (initialExecutionContext eid).execution_id = some eid :=
  ⟨rfl, rfl, rfl, rfl, rfl, rfl, rfl, rfl⟩

/-- C7: `terminateExecution` is idempotent — a second call leaves the
resulting context (status, history, error, indeed every field) exactly as
after the first call — and terminating an already-terminated instance is a
no-op success, not an error. -/
theorem terminateExecution_idempotent (c : EngineState) :
    (terminateExecution (terminateExecution c).1).1 = (terminateExecution c).1 ∧
    (c.status = "terminated" → terminateExecution c = (c, true)) := by
  constructor
  · by_cases h1 : c.status = "terminated"
    · simp [terminateExecution, h1]
    · by_cases h2 : c.status = "running" ∨ c.status = "paused"
      · simp [terminateExecution, h1, h2]
      · simp [terminateExecution, h1, h2]
  · intro h
    simp [terminateExecution, h]

/-- C7 (witness): the idempotence theorem applied at a concrete terminated
context. -/
theorem terminateExecution_witness :
    terminateExecution
      { execution_id := "e1", pipeline_id := "p1", status := "terminated",
        history := [], vars := [], executed := [], error := none } =
      ({ execution_id := "e1", pipeline_id := "p1", status := "terminated",
         history := [], vars := [], executed := [], error := none }, true) :=
  (terminateExecution_idempotent
    { execution_id := "e1", pipeline_id := "p1", status := "terminated",
      history := [], vars := [], executed := [], error := none }).2 rfl

theorem length_filter_le_of_imp {α : Type} (l : List α) (q r : α → Bool)
    (h : ∀ a, q a = true → r a = true) :
    (l.filter q).length ≤ (l.filter r).length := by
  induction l with
  | nil => simp
  | cons a t ih =>
    by_cases hq : q a = true
    · rw [List.filter_cons_of_pos hq, List.filter_cons_of_pos (h a hq)]
      simpa using ih
    · rw [List.filter_cons_of_neg (by simpa using hq)]
      by_cases hr : r a = true
      · rw [List.filter_cons_of_pos hr]
        exact ih.trans (Nat.le_succ _)
      · rw [List.filter_cons_of_neg (by simpa using hr)]
        exact ih

theorem unexecuted_decrease (l : List PState) (ex : List String) (s : PState)
    (hs : s ∈ l) (hex : ex.contains s.id = false) :
    (l.filter (fun t => !(ex ++ [s.id]).contains t.id)).length <
      (l.filter (fun t => !ex.contains t.id)).length := by
  have hexm : s.id ∉ ex := by simpa using hex
  have himp : ∀ b : PState,
      (!(ex ++ [s.id]).contains b.id) = true → (!ex.contains b.id) = true := by
    intro b hb
    simp only [Bool.not_eq_true'] at hb ⊢
    simp at hb ⊢
    exact hb.1
  induction l with
  | nil => simp at hs
  | cons a t ih =>
    by_cases ha : a.id = s.id
    · have hold : (!ex.contains a.id) = true := by
        simp [ha]
        exact hexm
      have hnew : (!(ex ++ [s.id]).contains a.id) = false := by
        simp [ha]
      simp only [List.filter_cons, hold, hnew, if_true, if_false,
        List.length_cons]
      exact Nat.lt_succ_of_le (length_filter_le_of_imp t
        (fun b => !(ex ++ [s.id]).contains b.id)
        (fun b => !ex.contains b.id) himp)
    · have hst : s ∈ t := by
        rcases List.mem_cons.mp hs with rfl | hst
        · exact absurd rfl ha
        · exact hst
      have hsame : (!(ex ++ [s.id]).contains a.id) = (!ex.contains a.id) := by
        by_cases hmem : a.id ∈ ex
        · simp [hmem]
        · simp [hmem, ha]
      by_cases hkeep : (!ex.contains a.id) = true
      · simp only [List.filter_cons, hsame, hkeep, if_true, List.length_cons]
        exact Nat.succ_lt_succ (ih hst)
      · have hkeep' : (!ex.contains a.id) = false := by
          simpa using hkeep
        simp only [List.filter_cons, hsame, hkeep', if_false]
        exact ih hst

theorem run_of_terminal (p : Pipeline) (caps : Caps) (input : String)
    (n : Nat) (c : EngineState) (h : isTerminal c.status = true) :
    run p caps input n c = c := by
  cases n with
  | zero => rfl
  | succ n => simp [run, h]

theorem step_none (p : Pipeline) (caps : Caps) (input : String)
    (c : EngineState) (h : c.status = "running")
    (hr : firstReady p c = none) :
    step p caps input c = { c with status := "completed" } := by
  simp [step, h, hr]

theorem step_err (p : Pipeline) (caps : Caps) (input : String)
    (c : EngineState) (s : PState) (e : String) (h : c.status = "running")
    (hr : firstReady p c = some s)
    (hcap : caps s.type (resolveInputs p input c.vars s) = Except.error e) :
    step p caps input c =
      { c with status := "error", error := some e,
               history := c.history ++
                 [{ state_id := s.id, action := "entered" }] } := by
  simp [step, h, hr, hcap]

theorem step_ok (p : Pipeline) (caps : Caps) (input : String)
    (c : EngineState) (s : PState) (outs : List (String × String))
    (h : c.status = "running") (hr : firstReady p c = some s)
    (hcap : caps s.type (resolveInputs p input c.vars s) = Except.ok outs) :
    step p caps input c =
      { c with executed := c.executed ++ [s.id],
               vars := c.vars ++ bindOutputs s outs,
               history := c.history ++
                 [{ state_id := s.id, action := "entered" },
                  { state_id := s.id, action := "completed" }] } := by
  simp [step, h, hr, hcap]

theorem step_progress (p : Pipeline) (caps : Caps) (input : String)
    (c : EngineState) (h : c.status = "running") :
    isTerminal (step p caps input c).status = true ∨
    ((step p caps input c).status = "running" ∧
      unexecutedCount p (step p caps input c) < unexecutedCount p c) := by
  rcases hr : firstReady p c with _ | s
  · rw [step_none p caps input c h hr]
    exact Or.inl rfl
  · rcases hcap : caps s.type (resolveInputs p input c.vars s) with e | outs
    · rw [step_err p caps input c s e h hr hcap]
      exact Or.inl rfl
    · rw [step_ok p caps input c s outs h hr hcap]
      refine Or.inr ⟨h, ?_⟩
      have hmem : s ∈ p.states := List.mem_of_find?_eq_some hr
      have hpred := List.find?_some hr
      simp only [Bool.and_eq_true, Bool.not_eq_true'] at hpred
      simp only [unexecutedCount]
      exact unexecuted_decrease p.states c.executed s hmem hpred.1

theorem run_reaches_terminal (p : Pipeline) (caps : Caps) (input : String) :
    ∀ fuel (c : EngineState), c.status = "running" →
      unexecutedCount p c < fuel →
      isTerminal (run p caps input fuel c).status = true := by
  intro fuel
  induction fuel with
  | zero => intro c _ hlt; omega
  | succ n ih =>
    intro c hc hlt
    have hnt : ¬ isTerminal c.status = true := by rw [hc]; decide
    simp only [run]
    rw [if_neg hnt]
    rcases step_progress p caps input c hc with hterm | ⟨hrun, hdec⟩
    · rw [run_of_terminal p caps input n _ hterm]
      exact hterm
    · exact ih (step p caps input c) hrun (by omega)

/-- C8: for every pipeline satisfying the spec's validity invariant and
every capability assignment (total functions — capabilities that themselves
terminate), an execution started with `startExecution` reaches one of the
terminal statuses `completed`, `error` or `terminated` under repeated
polling — here within `|states| + 1` scheduler steps. -/
theorem startExecution_eventually_terminal (p : Pipeline) (caps : Caps)
    (pid input eid : String) (_hv : validPipeline p = true) :
    isTerminal
      (run p caps input (p.states.length + 1)
        (startExecution pid input eid).2).status = true := by
  have hc : (startExecution pid input eid).2.status = "running" := rfl
  have hcount : unexecutedCount p (startExecution pid input eid).2 ≤
      p.states.length := by
    simpa [unexecutedCount] using
      List.length_filter_le
        (fun s : PState =>
          !((startExecution pid input eid).2.executed.contains s.id))
        p.states
  exact run_reaches_terminal p caps input (p.states.length + 1) _ hc
    (by omega)

/-- C8 (witness): the termination theorem at the sample pipeline with a
pure passthrough capability. -/
theorem startExecution_eventually_terminal_witness :
    isTerminal
      (run samplePipeline
        (fun _ _ =>
          Except.ok [("initial_prompt", "hi"), ("final_output", "hi")])
        "hi" (samplePipeline.states.length + 1)
        (startExecution "p1" "hi" "e1").2).status = true :=
  startExecution_eventually_terminal samplePipeline
    (fun _ _ => Except.ok [("initial_prompt", "hi"), ("final_output", "hi")])
    "p1" "hi" "e1" (by decide)

theorem runOps_open_eq_tracked (protocol host : String) (ops : List WsOp) :
    (runOps protocol host ops).1 = (runOps protocol host ops).2.toList := by
  have key : ∀ st : List WsSocket × Option WsSocket, st.1 = st.2.toList →
      (ops.foldl (runOp protocol host) st).1 =
        (ops.foldl (runOp protocol host) st).2.toList := by
    induction ops with
    | nil => intro st h; exact h
    | cons op t ih =>
      intro st h
      simp only [List.foldl_cons]
      apply ih
      cases op with
      | connectTo eid =>
        cases hs : st.2 with
        | none =>
          simp [runOp, connect, applyEffects, applyEffect, h, hs]
        | some s =>
          simp [runOp, connect, applyEffects, applyEffect, h, hs,
            List.erase_cons_head]
      | disconnectWs =>
        cases hs : st.2 with
        | none =>
          simp [runOp, disconnect, applyEffects, h, hs]
        | some s =>
          simp [runOp, disconnect, applyEffects, applyEffect, h, hs,
            List.erase_cons_head]
  exact key ([], none) rfl

/-- C9: starting from no connection, any sequence of hook calls leaves at
most one open WebSocket connection (exactly the tracked socket); `connect`
first closes the previously tracked socket and then opens the new
connection on `/ws/execution/<executionId>`, with the `wss:` scheme exactly
when the page protocol is `https:` and `ws:` otherwise; `disconnect` closes
and clears the tracked socket. -/
theorem useWebSocket_at_most_one_connection (protocol host : String)
    (ops : List WsOp) (s : WsSocket) (eid : String) :
    (runOps protocol host ops).1.length ≤ 1 ∧
    (runOps protocol host ops).1 = (runOps protocol host ops).2.toList ∧
    connect protocol host (some s) eid =
      ([WsEffect.closeSocket s,
        WsEffect.openSocket (wsUrl protocol host eid)],
       some { url := wsUrl protocol host eid }) ∧
    connect protocol host none eid =
      ([WsEffect.openSocket (wsUrl protocol host eid)],
       some { url := wsUrl protocol host eid }) ∧
    disconnect (some s) = ([WsEffect.closeSocket s], none) ∧
    disconnect none = ([], none) ∧
    (∃ scheme, wsUrl protocol host eid =
        scheme ++ "//" ++ host ++ "/ws/execution/" ++ eid ∧
      (scheme = "wss:" ↔ protocol = "https:")) := by
  refine ⟨?_, runOps_open_eq_tracked protocol host ops, rfl, rfl, rfl, rfl, ?_⟩
  · rw [runOps_open_eq_tracked protocol host ops]
    cases (runOps protocol host ops).2 <;> simp
  · by_cases hp : protocol = "https:"
    · exact ⟨"wss:", by simp [wsUrl, hp], by simp [hp]⟩
    · refine ⟨"ws:", by simp [wsUrl, hp], ?_⟩
      constructor
      · intro h; exact absurd h (by decide)
      · intro h; exact absurd h hp

/-- C2 (witness): the grouping theorem applied to a two-entry history: the
plain `s1` entry is grouped under `s1`, while the `s1->s2` transition marker
is not a group member. -/
theorem stateHistory_witness :
    ({ state_id := "s1", action := "entered" } : HistoryEntry) ∈
      lookupGroup "s1"
        (stateHistory [{ state_id := "s1", action := "entered" },
                       { state_id := "s1->s2", action := "transitioned" }]) :=
  (stateHistory_groups_exactly_non_transition_entries
    [{ state_id := "s1", action := "entered" },
     { state_id := "s1->s2", action := "transitioned" }]
    { state_id := "s1", action := "entered" } (by decide)).mpr (by decide)

end AiPoc
